import Mathlib

/-!
Verification of the NewReno congestion controller and the QUIC sender
transmission loop of this repository.

The Python sources are embedded shallowly:

* `Utils.py` constants become Lean `def`s.
* The `NewReno` class (`NewReno.py`) becomes a structure `NewReno` with pure
  state-passing operations `on_ack`, `on_loss`, `update_rtt`,
  `get_congestion_state`.  Python `float` arithmetic is embedded as exact
  rational (`ℚ`) arithmetic; Python unbounded `int` becomes `ℕ`/`ℤ`.
  `float('inf')` for `ssthresh` is embedded as `Option ℕ` with `none`
  standing for infinity.  Calls to `time.time()` become an explicit `now`
  argument.  Python truthiness tests `if self.recovery_start_time:` on an
  optional float are embedded by `pyTruthyTime` (`None` and `0.0` are falsy).
* The wire framing of packet ids (`str(id).zfill(8).encode()` on the sending
  side, `int(data[:8].decode().strip())` on the receiving side, from
  `QuicSender.py`) becomes list-of-`Char` functions `encodePacketId` /
  `decodePacketId`.
* The window-send loop `send_packets_in_window` and the timeout
  (persistent-congestion) branch of `QuicSender.simulate` become pure
  functions `send_packets_in_window` and `timeoutStep`.
-/

/-- `Utils.py`: maximum packet size in bytes, including headers. -/
def MAX_PACKET_SIZE : ℕ := 1500

/-- `Utils.py`: maximum buffer size for packet data, excluding headers. -/
def MAX_BUFFER_SIZE : ℕ := MAX_PACKET_SIZE - 8

/-- `Utils.py`: initial congestion window size. -/
def INITIAL_CONGESTION_WINDOW : ℕ := 2 * MAX_PACKET_SIZE

/-- Python truthiness of an optional float timestamp: `None` and `0.0` are
falsy, every other value is truthy.  This embeds tests of the form
`if self.recovery_start_time:` in `NewReno.py`. -/
def pyTruthyTime : Option ℚ → Bool
  | none => false
  | some t => decide (t ≠ 0)

/-- Python comparison `congestion_window < ssthresh` where `ssthresh` may be
`float('inf')` (embedded as `none`): every int is `<` infinity. -/
def cwndLtSsthresh (w : ℕ) : Option ℕ → Bool
  | none => true
  | some s => decide (w < s)

/-- State of the `NewReno` class of `NewReno.py` (all instance attributes set
in `__init__`). -/
structure NewReno where
  congestion_window : ℕ
  ssthresh : Option ℕ
  recovery_start_time : Option ℚ
  acked_bytes : ℕ
  estimated_rtt : ℚ
  dev_rtt : ℚ
  loss_detected : Bool
  cwnd_log : List ℚ
  estimated_rtt_log : List ℚ
  state_log : List ℕ
  max_ssthresh : ℕ
  rtt_var_log : List ℚ
  deriving Repr

/-- `NewReno.__init__`: the freshly constructed controller. -/
def NewReno.init : NewReno where
  congestion_window := 2 * MAX_PACKET_SIZE
  ssthresh := none
  recovery_start_time := none
  acked_bytes := 0
  estimated_rtt := 0.0001 * 1000
  dev_rtt := 0.001 * 1000
  loss_detected := false
  cwnd_log := []
  estimated_rtt_log := [0.0001 * 1000]
  state_log := [0]
  max_ssthresh := 0
  rtt_var_log := []

/-- `NewReno.update_rtt`: EWMA update of the estimated RTT and its deviation.
The deviation update reads `self.estimated_rtt` after the estimate has
already been overwritten, i.e. it uses the just-updated estimate. -/
def NewReno.update_rtt (c : NewReno) (rtt_sample : ℚ) : NewReno :=
  let alpha : ℚ := 0.125
  let beta : ℚ := 0.25
  let est := (1 - alpha) * c.estimated_rtt + alpha * rtt_sample
  let dev := (1 - beta) * c.dev_rtt + beta * |rtt_sample - est|
  { c with
      estimated_rtt := est
      dev_rtt := dev
      rtt_var_log := c.rtt_var_log ++ [dev] }

/-- `NewReno.get_congestion_state`: 0 = Slow Start, 1 = Congestion Avoidance,
2 = Recovery. -/
def NewReno.get_congestion_state (c : NewReno) : ℕ :=
  if pyTruthyTime c.recovery_start_time then 2
  else if cwndLtSsthresh c.congestion_window c.ssthresh && !c.loss_detected then 0
  else 1

/-- The recovery-exit test inside `NewReno.on_ack`:
`self.recovery_start_time and time.time() > self.recovery_start_time + rtt`
(with `now` standing for `time.time()`). -/
def recoveryExpired (c : NewReno) (rtt now : ℚ) : Bool :=
  pyTruthyTime c.recovery_start_time && decide (c.recovery_start_time.getD 0 + rtt < now)

/-- `NewReno.on_ack`: add the acknowledged bytes, update the RTT estimator
with the sample converted to milliseconds, possibly exit recovery, grow the
congestion window (exponentially below `ssthresh`, else linearly, clearing
`loss_detected`), and append to the three introspection logs.  `now` stands
for the `time.time()` call inside the method. -/
def NewReno.on_ack (c : NewReno) (acked_bytes : ℕ) (rtt : ℚ) (now : ℚ) : NewReno :=
  let c1 := { c with acked_bytes := c.acked_bytes + acked_bytes }
  let c2 := c1.update_rtt (rtt * 1000)
  let c3 :=
    if recoveryExpired c2 rtt now then { c2 with recovery_start_time := none } else c2
  let c4 :=
    if cwndLtSsthresh c3.congestion_window c3.ssthresh then
      { c3 with congestion_window := c3.congestion_window + MAX_PACKET_SIZE }
    else
      { c3 with
          congestion_window :=
            c3.congestion_window + MAX_PACKET_SIZE * acked_bytes / c3.congestion_window
          loss_detected := false }
  { c4 with
      cwnd_log := c4.cwnd_log ++ [(c4.congestion_window : ℚ) / (MAX_PACKET_SIZE : ℚ)]
      estimated_rtt_log := c4.estimated_rtt_log ++ [c4.estimated_rtt]
      state_log := c4.state_log ++ [c4.get_congestion_state] }

/-- The already-in-recovery test inside `NewReno.on_loss`:
`self.recovery_start_time and self.recovery_start_time >= time_sent`. -/
def lossCovered (c : NewReno) (time_sent : ℚ) : Bool :=
  pyTruthyTime c.recovery_start_time && decide (time_sent ≤ c.recovery_start_time.getD 0)

/-- `NewReno.on_loss`: set `loss_detected`; if recovery already covers the
lost packet only log the state, otherwise enter recovery (`recovery_start_time
← now`, `ssthresh` and `max_ssthresh` ← `max(cwnd // 2, 2*MSS)`), then either
reset the window for persistent congestion (also clearing
`recovery_start_time` and `loss_detected`) or halve it with a `2*MSS` floor,
and log the state.  `now` stands for the `time.time()` call. -/
def NewReno.on_loss (c : NewReno) (time_sent : ℚ) (is_persistent_congestion : Bool)
    (now : ℚ) : NewReno :=
  let c1 := { c with loss_detected := true }
  if lossCovered c1 time_sent then
    { c1 with state_log := c1.state_log ++ [c1.get_congestion_state] }
  else
    let c2 :=
      { c1 with
          recovery_start_time := some now
          ssthresh := some (max (c1.congestion_window / 2) (2 * MAX_PACKET_SIZE))
          max_ssthresh := max (c1.congestion_window / 2) (2 * MAX_PACKET_SIZE) }
    let c3 :=
      if is_persistent_congestion then
        { c2 with
            congestion_window := 2 * MAX_PACKET_SIZE
            recovery_start_time := none
            loss_detected := false }
      else
        { c2 with congestion_window := max (2 * MAX_PACKET_SIZE) (c2.congestion_window / 2) }
    { c3 with state_log := c3.state_log ++ [c3.get_congestion_state] }

/-- Controller states reachable from a freshly constructed controller by any
sequence of `on_ack` and `on_loss` calls (with arbitrary RTT samples,
timestamps and wall-clock readings). -/
inductive Reachable : NewReno → Prop
  | init : Reachable NewReno.init
  | ack (c : NewReno) (acked_bytes : ℕ) (rtt now : ℚ) :
      Reachable c → Reachable (c.on_ack acked_bytes rtt now)
  | loss (c : NewReno) (time_sent : ℚ) (b : Bool) (now : ℚ) :
      Reachable c → Reachable (c.on_loss time_sent b now)

/-! ### Field-computation lemmas for the controller operations -/

theorem on_ack_congestion_window (c : NewReno) (a : ℕ) (r t : ℚ) :
    (c.on_ack a r t).congestion_window =
      if cwndLtSsthresh c.congestion_window c.ssthresh then
        c.congestion_window + MAX_PACKET_SIZE
      else
        c.congestion_window + MAX_PACKET_SIZE * a / c.congestion_window := by
  simp only [NewReno.on_ack, NewReno.update_rtt, recoveryExpired]
  split <;> split <;> rfl

theorem on_ack_ssthresh (c : NewReno) (a : ℕ) (r t : ℚ) :
    (c.on_ack a r t).ssthresh = c.ssthresh := by
  simp only [NewReno.on_ack, NewReno.update_rtt, recoveryExpired]
  split <;> split <;> rfl

theorem on_ack_loss_detected (c : NewReno) (a : ℕ) (r t : ℚ) :
    (c.on_ack a r t).loss_detected =
      if cwndLtSsthresh c.congestion_window c.ssthresh then c.loss_detected else false := by
  simp only [NewReno.on_ack, NewReno.update_rtt, recoveryExpired]
  split <;> split <;> rfl

theorem on_ack_recovery_start_time (c : NewReno) (a : ℕ) (r t : ℚ) :
    (c.on_ack a r t).recovery_start_time =
      if recoveryExpired c r t then none else c.recovery_start_time := by
  simp only [NewReno.on_ack, NewReno.update_rtt, recoveryExpired]
  split <;> split <;> rfl

theorem on_ack_estimated_rtt (c : NewReno) (a : ℕ) (r t : ℚ) :
    (c.on_ack a r t).estimated_rtt =
      (1 - 0.125) * c.estimated_rtt + 0.125 * (r * 1000) := by
  simp only [NewReno.on_ack, NewReno.update_rtt, recoveryExpired]
  split <;> split <;> rfl

theorem on_ack_dev_rtt (c : NewReno) (a : ℕ) (r t : ℚ) :
    (c.on_ack a r t).dev_rtt =
      (1 - 0.25) * c.dev_rtt +
        0.25 * |r * 1000 - ((1 - 0.125) * c.estimated_rtt + 0.125 * (r * 1000))| := by
  simp only [NewReno.on_ack, NewReno.update_rtt, recoveryExpired]
  split <;> split <;> rfl

theorem on_ack_cwnd_log (c : NewReno) (a : ℕ) (r t : ℚ) :
    (c.on_ack a r t).cwnd_log =
      c.cwnd_log ++ [((c.on_ack a r t).congestion_window : ℚ) / (MAX_PACKET_SIZE : ℚ)] := by
  simp only [NewReno.on_ack, NewReno.update_rtt, recoveryExpired]
  split <;> split <;> rfl

theorem on_loss_congestion_window (c : NewReno) (ts : ℚ) (b : Bool) (now : ℚ) :
    (c.on_loss ts b now).congestion_window =
      if lossCovered c ts then c.congestion_window
      else if b then 2 * MAX_PACKET_SIZE
      else max (2 * MAX_PACKET_SIZE) (c.congestion_window / 2) := by
  simp only [NewReno.on_loss, lossCovered]
  split <;> [rfl; split <;> rfl]

theorem on_loss_ssthresh (c : NewReno) (ts : ℚ) (b : Bool) (now : ℚ) :
    (c.on_loss ts b now).ssthresh =
      if lossCovered c ts then c.ssthresh
      else some (max (c.congestion_window / 2) (2 * MAX_PACKET_SIZE)) := by
  simp only [NewReno.on_loss, lossCovered]
  split <;> [rfl; split <;> rfl]

theorem on_loss_max_ssthresh (c : NewReno) (ts : ℚ) (b : Bool) (now : ℚ) :
    (c.on_loss ts b now).max_ssthresh =
      if lossCovered c ts then c.max_ssthresh
      else max (c.congestion_window / 2) (2 * MAX_PACKET_SIZE) := by
  simp only [NewReno.on_loss, lossCovered]
  split <;> [rfl; split <;> rfl]

theorem on_loss_recovery_start_time (c : NewReno) (ts : ℚ) (b : Bool) (now : ℚ) :
    (c.on_loss ts b now).recovery_start_time =
      if lossCovered c ts then c.recovery_start_time
      else if b then none else some now := by
  simp only [NewReno.on_loss, lossCovered]
  split <;> [rfl; split <;> rfl]

theorem on_loss_loss_detected (c : NewReno) (ts : ℚ) (b : Bool) (now : ℚ) :
    (c.on_loss ts b now).loss_detected =
      if lossCovered c ts then true else if b then false else true := by
  simp only [NewReno.on_loss, lossCovered]
  split <;> [rfl; split <;> rfl]

theorem on_loss_estimated_rtt (c : NewReno) (ts : ℚ) (b : Bool) (now : ℚ) :
    (c.on_loss ts b now).estimated_rtt = c.estimated_rtt := by
  simp only [NewReno.on_loss, lossCovered]
  split <;> [rfl; split <;> rfl]

theorem on_loss_dev_rtt (c : NewReno) (ts : ℚ) (b : Bool) (now : ℚ) :
    (c.on_loss ts b now).dev_rtt = c.dev_rtt := by
  simp only [NewReno.on_loss, lossCovered]
  split <;> [rfl; split <;> rfl]

theorem on_loss_acked_bytes (c : NewReno) (ts : ℚ) (b : Bool) (now : ℚ) :
    (c.on_loss ts b now).acked_bytes = c.acked_bytes := by
  simp only [NewReno.on_loss, lossCovered]
  split <;> [rfl; split <;> rfl]

theorem on_loss_cwnd_log (c : NewReno) (ts : ℚ) (b : Bool) (now : ℚ) :
    (c.on_loss ts b now).cwnd_log = c.cwnd_log := by
  simp only [NewReno.on_loss, lossCovered]
  split <;> [rfl; split <;> rfl]

theorem on_loss_estimated_rtt_log (c : NewReno) (ts : ℚ) (b : Bool) (now : ℚ) :
    (c.on_loss ts b now).estimated_rtt_log = c.estimated_rtt_log := by
  simp only [NewReno.on_loss, lossCovered]
  split <;> [rfl; split <;> rfl]

theorem on_loss_rtt_var_log (c : NewReno) (ts : ℚ) (b : Bool) (now : ℚ) :
    (c.on_loss ts b now).rtt_var_log = c.rtt_var_log := by
  simp only [NewReno.on_loss, lossCovered]
  split <;> [rfl; split <;> rfl]

theorem on_loss_state_log_covered (c : NewReno) (ts : ℚ) (b : Bool) (now : ℚ)
    (h : lossCovered c ts = true) :
    (c.on_loss ts b now).state_log =
      c.state_log ++ [NewReno.get_congestion_state { c with loss_detected := true }] := by
  simp only [NewReno.on_loss]
  rw [if_pos]
  exact h

/-! ### C1: the congestion window never drops below `2 * MSS` -/

theorem on_ack_cwnd_lower_bound (c : NewReno) (a : ℕ) (r t : ℚ)
    (h : 2 * MAX_PACKET_SIZE ≤ c.congestion_window) :
    2 * MAX_PACKET_SIZE ≤ (c.on_ack a r t).congestion_window := by
  rw [on_ack_congestion_window]
  split <;> exact le_trans h (Nat.le_add_right _ _)

theorem on_loss_cwnd_lower_bound (c : NewReno) (ts : ℚ) (b : Bool) (now : ℚ)
    (h : 2 * MAX_PACKET_SIZE ≤ c.congestion_window) :
    2 * MAX_PACKET_SIZE ≤ (c.on_loss ts b now).congestion_window := by
  rw [on_loss_congestion_window]
  split
  · exact h
  · split <;> omega

/-- C1.  Every controller state reachable from a freshly constructed NewReno
controller by any sequence of `on_ack` calls (acknowledged byte counts are
natural numbers, hence non-negative) and `on_loss` calls satisfies
`congestion_window ≥ 2 * MSS` with `MSS = MAX_PACKET_SIZE = 1500`: the
window starts at `2 * MSS` and no operation ever drives it below that
floor. -/
theorem congestion_window_ge_two_mss (c : NewReno) (h : Reachable c) :
    2 * MAX_PACKET_SIZE ≤ c.congestion_window := by
  induction h with
  | init => simp [NewReno.init]
  | ack c a r t _ ih => exact on_ack_cwnd_lower_bound c a r t ih
  | loss c ts b now _ ih => exact on_loss_cwnd_lower_bound c ts b now ih

/-- Witness for C1: the theorem applied to the concrete reachable state
obtained from a fresh controller by one `on_ack` and one `on_loss` call. -/
theorem congestion_window_ge_two_mss_witness :
    2 * MAX_PACKET_SIZE ≤
      ((NewReno.init.on_ack 1500 0.02 5).on_loss 3 false 7).congestion_window :=
  congestion_window_ge_two_mss _
    (Reachable.loss _ 3 false 7 (Reachable.ack _ 1500 0.02 5 Reachable.init))

/-! ### C2: evolution of `ssthresh` -/

/-- The order "this `ssthresh` value is at most that one", where `none`
embeds `float('inf')`. -/
def ssthreshLE : Option ℕ → Option ℕ → Prop
  | _, none => True
  | none, some _ => False
  | some a, some b => a ≤ b

/-- Counterexample to C2 as stated.  From a fresh controller: one
non-persistent loss (sets `ssthresh = 3000`), one ack that exits recovery
and grows the window linearly, one ack with a large acknowledged byte count
(window reaches `403750`), then a further loss.  That last `on_loss` call
sets `ssthresh` to `max(403750 // 2, 3000) = 201875 > 3000`, so `ssthresh`
increases across a single call applied to a reachable state. -/
theorem ssthresh_nonincreasing_cex :
    Reachable (((NewReno.init.on_loss 1 false 10).on_ack 1500 1 100).on_ack 1000000 1 101) ∧
    ¬ ssthreshLE
        ((((NewReno.init.on_loss 1 false 10).on_ack 1500 1 100).on_ack 1000000 1
              101).on_loss 200 false 300).ssthresh
        (((NewReno.init.on_loss 1 false 10).on_ack 1500 1 100).on_ack 1000000 1
            101).ssthresh := by
  constructor
  · exact Reachable.ack _ 1000000 1 101
      (Reachable.ack _ 1500 1 100 (Reachable.loss _ 1 false 10 Reachable.init))
  · have h0 : NewReno.init.congestion_window = 3000 := rfl
    have h0rst : NewReno.init.recovery_start_time = none := rfl
    have hcov0 : lossCovered NewReno.init 1 = false := by
      simp [lossCovered, h0rst, pyTruthyTime]
    have h1ss : (NewReno.init.on_loss 1 false 10).ssthresh = some 3000 := by
      rw [on_loss_ssthresh, hcov0, if_neg (by simp), h0]
      decide
    have h1rst : (NewReno.init.on_loss 1 false 10).recovery_start_time = some 10 := by
      rw [on_loss_recovery_start_time, hcov0, if_neg (by simp), if_neg (by simp)]
    have h1cwnd : (NewReno.init.on_loss 1 false 10).congestion_window = 3000 := by
      rw [on_loss_congestion_window, hcov0, if_neg (by simp), if_neg (by simp), h0]
      decide
    have hexp1 : recoveryExpired (NewReno.init.on_loss 1 false 10) 1 100 = true := by
      simp [recoveryExpired, h1rst, pyTruthyTime]
      norm_num
    have h2rst :
        ((NewReno.init.on_loss 1 false 10).on_ack 1500 1 100).recovery_start_time = none := by
      rw [on_ack_recovery_start_time, hexp1, if_pos rfl]
    have h2ss :
        ((NewReno.init.on_loss 1 false 10).on_ack 1500 1 100).ssthresh = some 3000 := by
      rw [on_ack_ssthresh, h1ss]
    have hlt1 :
        cwndLtSsthresh (NewReno.init.on_loss 1 false 10).congestion_window
          (NewReno.init.on_loss 1 false 10).ssthresh = false := by
      rw [h1cwnd, h1ss]
      simp [cwndLtSsthresh]
    have h2cwnd :
        ((NewReno.init.on_loss 1 false 10).on_ack 1500 1 100).congestion_window = 3750 := by
      rw [on_ack_congestion_window, hlt1, if_neg (by simp), h1cwnd]
      norm_num [MAX_PACKET_SIZE]
    have hlt2 :
        cwndLtSsthresh
          ((NewReno.init.on_loss 1 false 10).on_ack 1500 1 100).congestion_window
          ((NewReno.init.on_loss 1 false 10).on_ack 1500 1 100).ssthresh = false := by
      rw [h2cwnd, h2ss]
      simp [cwndLtSsthresh]
    have h3cwnd :
        (((NewReno.init.on_loss 1 false 10).on_ack 1500 1 100).on_ack 1000000 1
            101).congestion_window = 403750 := by
      rw [on_ack_congestion_window, hlt2, if_neg (by simp), h2cwnd]
      norm_num [MAX_PACKET_SIZE]
    have h3ss :
        (((NewReno.init.on_loss 1 false 10).on_ack 1500 1 100).on_ack 1000000 1
            101).ssthresh = some 3000 := by
      rw [on_ack_ssthresh, h2ss]
    have h3rst :
        (((NewReno.init.on_loss 1 false 10).on_ack 1500 1 100).on_ack 1000000 1
            101).recovery_start_time = none := by
      rw [on_ack_recovery_start_time]
      have : recoveryExpired ((NewReno.init.on_loss 1 false 10).on_ack 1500 1 100) 1
          101 = false := by
        simp [recoveryExpired, h2rst, pyTruthyTime]
      rw [this, if_neg (by simp), h2rst]
    have hcov3 :
        lossCovered (((NewReno.init.on_loss 1 false 10).on_ack 1500 1 100).on_ack 1000000 1
            101) 200 = false := by
      simp [lossCovered, h3rst, pyTruthyTime]
    have h4ss :
        ((((NewReno.init.on_loss 1 false 10).on_ack 1500 1 100).on_ack 1000000 1
              101).on_loss 200 false 300).ssthresh = some 201875 := by
      rw [on_loss_ssthresh, hcov3, if_neg (by simp), h3cwnd]
      decide
    rw [h4ss, h3ss]
    simp [ssthreshLE]

/-- C2 amended.  `ssthresh` is never changed by `on_ack`; `on_loss` leaves it
unchanged when an active recovery period already covers the lost packet and
otherwise sets it to `max(congestion_window // 2, 2*MSS)` — a value that can
exceed the previous `ssthresh` once the window has grown past twice the old
threshold, so `ssthresh` is not monotonically non-increasing across calls.
It is infinite only at construction. -/
theorem ssthresh_evolution :
    (∀ (c : NewReno) (a : ℕ) (r t : ℚ), (c.on_ack a r t).ssthresh = c.ssthresh) ∧
    (∀ (c : NewReno) (ts : ℚ) (b : Bool) (now : ℚ),
        (c.on_loss ts b now).ssthresh =
          if lossCovered c ts then c.ssthresh
          else some (max (c.congestion_window / 2) (2 * MAX_PACKET_SIZE))) ∧
    NewReno.init.ssthresh = none := by
  exact ⟨on_ack_ssthresh, on_loss_ssthresh, rfl⟩

/-! ### C4, C5, C6, C7, C8: functional behaviour of the controller -/

theorem lossCovered_eq_false_of (c : NewReno) (ts : ℚ)
    (h : c.recovery_start_time = none ∨ ∃ t, c.recovery_start_time = some t ∧ t < ts) :
    lossCovered c ts = false := by
  rcases h with h | ⟨t, ht, hlt⟩
  · simp [lossCovered, h, pyTruthyTime]
  · have : decide (ts ≤ t) = false := decide_eq_false (not_le.mpr hlt)
    simp [lossCovered, ht, this]

/-- C4.  When recovery does not already cover the lost packet
(`recovery_start_time` unset, or set but earlier than `time_sent`),
`on_loss` enters recovery: `ssthresh` and `max_ssthresh` are set to
`max(congestion_window // 2, 2*MSS)`; if `is_persistent` the window is reset
to `2*MSS` and both `recovery_start_time` and `loss_detected` are cleared,
else the window becomes `max(2*MSS, congestion_window // 2)` and
`recovery_start_time` stays set (to the current time).  Concretely,
`on_ack(1500, 0.02s)` on a fresh controller followed by a non-persistent
`on_loss` gives `ssthresh = 3000`, `congestion_window = 3000`,
`state() = Recovery` (state code 2). -/
theorem on_loss_enter_recovery :
    (∀ (c : NewReno) (ts : ℚ) (b : Bool) (now : ℚ),
        (c.recovery_start_time = none ∨ ∃ t, c.recovery_start_time = some t ∧ t < ts) →
        (c.on_loss ts b now).ssthresh =
            some (max (c.congestion_window / 2) (2 * MAX_PACKET_SIZE)) ∧
        (c.on_loss ts b now).max_ssthresh =
            max (c.congestion_window / 2) (2 * MAX_PACKET_SIZE) ∧
        (b = true →
          (c.on_loss ts b now).congestion_window = 2 * MAX_PACKET_SIZE ∧
          (c.on_loss ts b now).recovery_start_time = none ∧
          (c.on_loss ts b now).loss_detected = false) ∧
        (b = false →
          (c.on_loss ts b now).congestion_window =
              max (2 * MAX_PACKET_SIZE) (c.congestion_window / 2) ∧
          (c.on_loss ts b now).recovery_start_time = some now ∧
          (c.on_loss ts b now).loss_detected = true)) ∧
    ((NewReno.init.on_ack 1500 0.02 1).on_loss 3 false 7).ssthresh = some 3000 ∧
    ((NewReno.init.on_ack 1500 0.02 1).on_loss 3 false 7).congestion_window = 3000 ∧
    ((NewReno.init.on_ack 1500 0.02 1).on_loss 3 false 7).get_congestion_state = 2 := by
  have hgen : ∀ (c : NewReno) (ts : ℚ) (b : Bool) (now : ℚ),
      (c.recovery_start_time = none ∨ ∃ t, c.recovery_start_time = some t ∧ t < ts) →
      (c.on_loss ts b now).ssthresh =
          some (max (c.congestion_window / 2) (2 * MAX_PACKET_SIZE)) ∧
      (c.on_loss ts b now).max_ssthresh =
          max (c.congestion_window / 2) (2 * MAX_PACKET_SIZE) ∧
      (b = true →
        (c.on_loss ts b now).congestion_window = 2 * MAX_PACKET_SIZE ∧
        (c.on_loss ts b now).recovery_start_time = none ∧
        (c.on_loss ts b now).loss_detected = false) ∧
      (b = false →
        (c.on_loss ts b now).congestion_window =
            max (2 * MAX_PACKET_SIZE) (c.congestion_window / 2) ∧
        (c.on_loss ts b now).recovery_start_time = some now ∧
        (c.on_loss ts b now).loss_detected = true) := by
    intro c ts b now h
    have hcov := lossCovered_eq_false_of c ts h
    refine ⟨?_, ?_, ?_, ?_⟩
    · rw [on_loss_ssthresh, hcov, if_neg (by simp)]
    · rw [on_loss_max_ssthresh, hcov, if_neg (by simp)]
    · rintro rfl
      exact ⟨by rw [on_loss_congestion_window, hcov]; simp,
             by rw [on_loss_recovery_start_time, hcov]; simp,
             by rw [on_loss_loss_detected, hcov]; simp⟩
    · rintro rfl
      exact ⟨by rw [on_loss_congestion_window, hcov]; simp,
             by rw [on_loss_recovery_start_time, hcov]; simp,
             by rw [on_loss_loss_detected, hcov]; simp⟩
  have hackrst : (NewReno.init.on_ack 1500 0.02 1).recovery_start_time = none := by
    rw [on_ack_recovery_start_time]
    simp [recoveryExpired, NewReno.init, pyTruthyTime]
  have hackcwnd : (NewReno.init.on_ack 1500 0.02 1).congestion_window = 4500 := by
    rw [on_ack_congestion_window]
    decide
  have hconc := hgen (NewReno.init.on_ack 1500 0.02 1) 3 false 7 (Or.inl hackrst)
  refine ⟨hgen, ?_, ?_, ?_⟩
  · rw [hconc.1, hackcwnd]
    decide
  · rw [(hconc.2.2.2 rfl).1, hackcwnd]
    decide
  · have hrst := (hconc.2.2.2 rfl).2.1
    simp [NewReno.get_congestion_state, hrst, pyTruthyTime]

/-- Witness for C4: the general clause of the theorem applied to the concrete
controller state reached by `on_ack(1500, 0.02s)` on a fresh controller, with
a non-persistent loss at `time_sent = 3`, `now = 7`. -/
theorem on_loss_enter_recovery_witness :
    ((NewReno.init.on_ack 1500 0.02 1).on_loss 3 false 7).ssthresh =
      some (max ((NewReno.init.on_ack 1500 0.02 1).congestion_window / 2)
        (2 * MAX_PACKET_SIZE)) :=
  (on_loss_enter_recovery.1 (NewReno.init.on_ack 1500 0.02 1) 3 false 7
      (Or.inl (by rw [on_ack_recovery_start_time]
                  simp [recoveryExpired, NewReno.init, pyTruthyTime]))).1

/-- C5.  `on_ack(acked_bytes, rtt)` grows the window by exactly `MSS` when
`congestion_window < ssthresh` (leaving `loss_detected` unchanged) and by
exactly `floor(MSS * acked_bytes / congestion_window)` otherwise (clearing
`loss_detected`); `on_ack(1500, 0.02s)` on a fresh controller yields
`congestion_window = 4500` and logs the window-in-segments value `3`. -/
theorem on_ack_growth_spec :
    (∀ (c : NewReno) (a : ℕ) (r t : ℚ),
        (c.on_ack a r t).congestion_window =
          (if cwndLtSsthresh c.congestion_window c.ssthresh then
             c.congestion_window + MAX_PACKET_SIZE
           else c.congestion_window + MAX_PACKET_SIZE * a / c.congestion_window) ∧
        (c.on_ack a r t).loss_detected =
          (if cwndLtSsthresh c.congestion_window c.ssthresh then c.loss_detected
           else false)) ∧
    (NewReno.init.on_ack 1500 0.02 1).congestion_window = 4500 ∧
    (NewReno.init.on_ack 1500 0.02 1).cwnd_log = [3] := by
  have h45 : (NewReno.init.on_ack 1500 0.02 1).congestion_window = 4500 := by
    rw [on_ack_congestion_window]
    decide
  refine ⟨fun c a r t => ⟨on_ack_congestion_window c a r t, on_ack_loss_detected c a r t⟩,
    h45, ?_⟩
  rw [on_ack_cwnd_log, h45]
  have : NewReno.init.cwnd_log = [] := rfl
  rw [this]
  norm_num [MAX_PACKET_SIZE]

/-- C6.  The RTT estimator starts at `estimated_rtt = 0.1` ms and
`rtt_deviation = 1` ms; each update with sample `s` sets
`estimated_rtt := (1-0.125)*estimated_rtt + 0.125*s` and then
`rtt_deviation := (1-0.25)*rtt_deviation + 0.25*|s - estimated_rtt|` using
the just-updated estimate.  A single `update_rtt(50)` on a fresh estimator
yields `estimated_rtt = 6.3375` and `rtt_deviation = 11.665625`. -/
theorem update_rtt_spec :
    NewReno.init.estimated_rtt = 0.1 ∧ NewReno.init.dev_rtt = 1 ∧
    (∀ (c : NewReno) (s : ℚ),
        (c.update_rtt s).estimated_rtt = (1 - 0.125) * c.estimated_rtt + 0.125 * s ∧
        (c.update_rtt s).dev_rtt =
          (1 - 0.25) * c.dev_rtt +
            0.25 * |s - ((1 - 0.125) * c.estimated_rtt + 0.125 * s)|) ∧
    (NewReno.init.update_rtt 50).estimated_rtt = 6.3375 ∧
    (NewReno.init.update_rtt 50).dev_rtt = 11.665625 := by
  refine ⟨by norm_num [NewReno.init], by norm_num [NewReno.init],
    fun c s => ⟨rfl, rfl⟩, ?_, ?_⟩
  · norm_num [NewReno.init, NewReno.update_rtt]
  · norm_num [NewReno.init, NewReno.update_rtt]
    rw [abs_of_nonneg (by norm_num)]
    norm_num

/-- C7.  `get_congestion_state` is a pure function of the stored fields
`recovery_start_time`, `congestion_window`/`ssthresh` and `loss_detected`
(so repeated calls without intervening `on_ack`/`on_loss` agree), with the
priority: Recovery if `recovery_start_time` is set, else SlowStart if
`congestion_window < ssthresh` and no loss detected, else
CongestionAvoidance; in particular `congestion_window = ssthresh` with
`loss_detected = false` and no active recovery gives CongestionAvoidance
(state code 1).  The "is set" reading matches the code's truthiness test
because stored timestamps are wall-clock values, hence positive. -/
theorem get_congestion_state_spec :
    (∀ c c' : NewReno,
        c.recovery_start_time = c'.recovery_start_time →
        c.congestion_window = c'.congestion_window →
        c.ssthresh = c'.ssthresh →
        c.loss_detected = c'.loss_detected →
        c.get_congestion_state = c'.get_congestion_state) ∧
    (∀ c : NewReno,
        (c.recovery_start_time = none ∨ ∃ t, 0 < t ∧ c.recovery_start_time = some t) →
        c.get_congestion_state =
          (if c.recovery_start_time.isSome then 2
           else if cwndLtSsthresh c.congestion_window c.ssthresh && !c.loss_detected then 0
           else 1)) ∧
    (∀ (c : NewReno) (n : ℕ),
        c.recovery_start_time = none → c.ssthresh = some n → c.congestion_window = n →
        c.loss_detected = false → c.get_congestion_state = 1) := by
  refine ⟨?_, ?_, ?_⟩
  · intro c c' h1 h2 h3 h4
    simp only [NewReno.get_congestion_state]
    rw [h1, h2, h3, h4]
  · intro c h
    rcases h with h | ⟨t, ht, h⟩
    · simp [NewReno.get_congestion_state, h, pyTruthyTime]
    · have : pyTruthyTime (some t) = true := by
        simp [pyTruthyTime]
        exact ne_of_gt ht
      simp [NewReno.get_congestion_state, h, this]
  · intro c n h1 h2 h3 h4
    simp [NewReno.get_congestion_state, h1, h2, h3, h4, pyTruthyTime, cwndLtSsthresh]

/-- Witness for C7: the third clause applied to a concrete state whose window
equals its threshold, with no loss detected and no active recovery. -/
theorem get_congestion_state_spec_witness :
    NewReno.get_congestion_state
        { congestion_window := 3000, ssthresh := some 3000, recovery_start_time := none,
          acked_bytes := 0, estimated_rtt := 1, dev_rtt := 1, loss_detected := false,
          cwnd_log := [], estimated_rtt_log := [], state_log := [], max_ssthresh := 0,
          rtt_var_log := [] } = 1 :=
  get_congestion_state_spec.2.2 _ 3000 rfl rfl rfl rfl

/-- C8.  When recovery already covers the lost packet (`recovery_start_time`
is a (nonzero, i.e. truthy) timestamp `t` with `t ≥ time_sent`), `on_loss`
performs no further window reduction: `congestion_window`, `ssthresh`,
`max_ssthresh` and `recovery_start_time` (and every other field except the
two below) are unchanged; only `loss_detected` is set and a state entry
(Recovery, code 2) is appended to the state log. -/
theorem on_loss_covered_frame :
    ∀ (c : NewReno) (ts : ℚ) (b : Bool) (now t : ℚ),
      c.recovery_start_time = some t → t ≠ 0 → ts ≤ t →
      (c.on_loss ts b now).congestion_window = c.congestion_window ∧
      (c.on_loss ts b now).ssthresh = c.ssthresh ∧
      (c.on_loss ts b now).max_ssthresh = c.max_ssthresh ∧
      (c.on_loss ts b now).recovery_start_time = c.recovery_start_time ∧
      (c.on_loss ts b now).loss_detected = true ∧
      (c.on_loss ts b now).state_log = c.state_log ++ [2] ∧
      (c.on_loss ts b now).cwnd_log = c.cwnd_log ∧
      (c.on_loss ts b now).estimated_rtt_log = c.estimated_rtt_log ∧
      (c.on_loss ts b now).estimated_rtt = c.estimated_rtt ∧
      (c.on_loss ts b now).dev_rtt = c.dev_rtt ∧
      (c.on_loss ts b now).acked_bytes = c.acked_bytes ∧
      (c.on_loss ts b now).rtt_var_log = c.rtt_var_log := by
  intro c ts b now t h1 h2 h3
  have hcov : lossCovered c ts = true := by
    simp [lossCovered, h1, pyTruthyTime, h2, h3]
  have hstate :
      NewReno.get_congestion_state { c with loss_detected := true } = 2 := by
    simp [NewReno.get_congestion_state, h1, pyTruthyTime, h2]
  refine ⟨?_, ?_, ?_, ?_, ?_, ?_, ?_, ?_, ?_, ?_, ?_, ?_⟩
  · rw [on_loss_congestion_window, hcov, if_pos rfl]
  · rw [on_loss_ssthresh, hcov, if_pos rfl]
  · rw [on_loss_max_ssthresh, hcov, if_pos rfl]
  · rw [on_loss_recovery_start_time, hcov, if_pos rfl]
  · rw [on_loss_loss_detected, hcov, if_pos rfl]
  · rw [on_loss_state_log_covered c ts b now hcov, hstate]
  · exact on_loss_cwnd_log c ts b now
  · exact on_loss_estimated_rtt_log c ts b now
  · exact on_loss_estimated_rtt c ts b now
  · exact on_loss_dev_rtt c ts b now
  · exact on_loss_acked_bytes c ts b now
  · exact on_loss_rtt_var_log c ts b now

/-- Witness for C8: the theorem applied to a concrete state in recovery since
time `5`, with a loss whose packet was sent at time `3 ≤ 5`. -/
theorem on_loss_covered_frame_witness :
    (NewReno.on_loss
        { congestion_window := 6000, ssthresh := some 3000, recovery_start_time := some 5,
          acked_bytes := 0, estimated_rtt := 1, dev_rtt := 1, loss_detected := false,
          cwnd_log := [], estimated_rtt_log := [], state_log := [], max_ssthresh := 3000,
          rtt_var_log := [] } 3 false 9).congestion_window = 6000 :=
  (on_loss_covered_frame _ 3 false 9 5 rfl (by norm_num) (by norm_num)).1

/-! ### Wire framing of packet ids (`QuicSender.py`)

The sender encodes `str(packet_id).zfill(8).encode()` and prepends it to the
payload; the receiver side of an id field is `int(data[:8].decode().strip())`.
Strings are embedded as `List Char`. -/

/-- The ASCII digit character for `d < 10`. -/
def digitChar (d : ℕ) : Char := Char.ofNat (48 + d)

/-- Most-significant-first decimal digits of `n` (empty for `n = 0`); the
fuel argument only bounds the recursion depth. -/
def natStrAux : ℕ → ℕ → List Char
  | 0, _ => []
  | fuel + 1, n => if n = 0 then [] else natStrAux fuel (n / 10) ++ [digitChar (n % 10)]

/-- Python `str(n)` for a natural number `n`. -/
def natStr (n : ℕ) : List Char := if n = 0 then ['0'] else natStrAux (n + 1) n

/-- Python `str(i)` for an integer: a leading `'-'` for negative values, no
leading zeros. -/
def intStr (i : ℤ) : List Char :=
  if i < 0 then '-' :: natStr i.natAbs else natStr i.toNat

/-- Python `str.zfill(w)`: left-pad with `'0'` to width `w`; when the string
starts with a sign character the padding is inserted after the sign; strings
already at least `w` long are returned unchanged. -/
def zfill (w : ℕ) (s : List Char) : List Char :=
  if w ≤ s.length then s
  else
    match s with
    | [] => List.replicate w '0'
    | c :: rest =>
      if c = '-' ∨ c = '+' then c :: (List.replicate (w - s.length) '0' ++ rest)
      else List.replicate (w - s.length) '0' ++ s

/-- The packet-id wire encoding `str(packet_id).zfill(8).encode()` used by
`QuicSender.send_packets_in_window`, `start_sending_initial_packet`,
`close_session` and the EOF marker. -/
def encodePacketId (i : ℤ) : List Char := zfill 8 (intStr i)

/-- Numeric value of an ASCII digit character. -/
def digitVal (c : Char) : ℕ := c.toNat - 48

/-- Value of a string of decimal digits, most significant first. -/
def parseNatVal (s : List Char) : ℕ := s.foldl (fun a c => a * 10 + digitVal c) 0

/-- Python `int()` on an unsigned decimal string: defined exactly on
non-empty all-digit strings. -/
def parseDigits (s : List Char) : Option ℕ :=
  if s ≠ [] ∧ s.all Char.isDigit then some (parseNatVal s) else none

/-- Python `int()` on a possibly signed decimal string (`ValueError` on
malformed input is embedded as `none`). -/
def pyInt (s : List Char) : Option ℤ :=
  match s with
  | [] => none
  | c :: rest =>
    if c = '-' then (parseDigits rest).map fun n => -(n : ℤ)
    else if c = '+' then (parseDigits rest).map fun n => (n : ℤ)
    else (parseDigits s).map fun n => (n : ℤ)

/-- Python `str.strip()`: remove whitespace from both ends. -/
def pyStrip (s : List Char) : List Char :=
  ((s.dropWhile Char.isWhitespace).reverse.dropWhile Char.isWhitespace).reverse

/-- The id-field decoding `int(data[:8].decode().strip())` used by
`QuicSender.send_packet` and `QuicSender.receive_ack`: take the first 8
bytes of the datagram and parse them as a decimal integer. -/
def decodePacketId (bytes : List Char) : Option ℤ := pyInt (pyStrip (bytes.take 8))

/-! ### C3: round-trip of the packet-id wire format -/

theorem digitVal_digitChar (d : ℕ) (h : d < 10) : digitVal (digitChar d) = d := by
  interval_cases d <;> decide

theorem digitChar_isDigit (d : ℕ) (h : d < 10) : (digitChar d).isDigit = true := by
  interval_cases d <;> decide

theorem isDigit_ne_sign (c : Char) (h : c.isDigit = true) : ¬(c = '-' ∨ c = '+') := by
  rintro (rfl | rfl) <;> exact absurd h (by decide)

theorem isDigit_not_whitespace (c : Char) (h : c.isDigit = true) :
    c.isWhitespace = false := by
  rw [Bool.eq_false_iff]
  intro hw
  simp only [Char.isWhitespace, Bool.or_eq_true, decide_eq_true_eq] at hw
  rcases hw with ((rfl | rfl) | rfl) | rfl <;> exact absurd h (by decide)

theorem natStrAux_all_digits (fuel : ℕ) :
    ∀ n, (natStrAux fuel n).all Char.isDigit = true := by
  induction fuel with
  | zero => intro n; rfl
  | succ fuel ih =>
    intro n
    simp only [natStrAux]
    split
    · rfl
    · rw [List.all_append, ih (n / 10)]
      simp [digitChar_isDigit (n % 10) (Nat.mod_lt n (by norm_num))]

theorem natStrAux_length_le (fuel : ℕ) :
    ∀ n k : ℕ, n < 10 ^ k → (natStrAux fuel n).length ≤ k := by
  induction fuel with
  | zero => intro n k _; simp [natStrAux]
  | succ fuel ih =>
    intro n k hk
    simp only [natStrAux]
    split
    · simp
    · rename_i hn
      rcases Nat.eq_zero_or_pos k with rfl | hkpos
      · rw [pow_zero] at hk
        exact absurd (Nat.lt_one_iff.mp hk) hn
      · obtain ⟨k', rfl⟩ : ∃ k', k = k' + 1 := ⟨k - 1, by omega⟩
        have hdiv : n / 10 < 10 ^ k' := by
          rw [Nat.div_lt_iff_lt_mul (by norm_num)]
          calc n < 10 ^ (k' + 1) := hk
            _ = 10 ^ k' * 10 := by ring
        have := ih (n / 10) k' hdiv
        simp only [List.length_append, List.length_singleton]
        omega

theorem natStrAux_parse (fuel : ℕ) :
    ∀ n acc : ℕ, n < 10 ^ fuel →
      (natStrAux fuel n).foldl (fun a c => a * 10 + digitVal c) acc =
        acc * 10 ^ (natStrAux fuel n).length + n := by
  induction fuel with
  | zero =>
    intro n acc h
    have hn : n = 0 := by simpa using h
    subst hn
    simp [natStrAux]
  | succ fuel ih =>
    intro n acc h
    simp only [natStrAux]
    split
    · rename_i hn; subst hn; simp
    · rename_i hn
      rw [List.foldl_append]
      have hdiv : n / 10 < 10 ^ fuel := by
        rw [Nat.div_lt_iff_lt_mul (by norm_num)]
        calc n < 10 ^ (fuel + 1) := h
          _ = 10 ^ fuel * 10 := by ring
      rw [ih (n / 10) acc hdiv]
      simp only [List.foldl_cons, List.foldl_nil, List.length_append,
        List.length_singleton]
      rw [digitVal_digitChar (n % 10) (Nat.mod_lt n (by norm_num)), pow_succ,
        ← mul_assoc]
      omega

theorem natStr_ne_nil (n : ℕ) : natStr n ≠ [] := by
  unfold natStr
  split
  · simp
  · rename_i hn
    simp only [natStrAux]
    rw [if_neg hn]
    simp

theorem natStr_all_digits (n : ℕ) : (natStr n).all Char.isDigit = true := by
  unfold natStr
  split
  · decide
  · exact natStrAux_all_digits (n + 1) n

theorem natStr_length_le (n k : ℕ) (hk : 0 < k) (h : n < 10 ^ k) :
    (natStr n).length ≤ k := by
  unfold natStr
  split
  · simpa using hk
  · exact natStrAux_length_le (n + 1) n k h

theorem parseNatVal_natStr (n : ℕ) : parseNatVal (natStr n) = n := by
  unfold natStr parseNatVal
  split
  · rename_i h; subst h; decide
  · have hfuel : n < 10 ^ (n + 1) :=
      lt_of_lt_of_le (Nat.lt_pow_self (by norm_num) n)
        (Nat.pow_le_pow_right (by norm_num) (by omega))
    rw [natStrAux_parse (n + 1) n 0 hfuel]
    simp

theorem parseNatVal_zeros_append (k : ℕ) (s : List Char) :
    parseNatVal (List.replicate k '0' ++ s) = parseNatVal s := by
  unfold parseNatVal
  rw [List.foldl_append]
  congr 1
  induction k with
  | zero => rfl
  | succ k ih =>
    rw [List.replicate_succ, List.foldl_cons]
    have h0 : (0 : ℕ) * 10 + digitVal '0' = 0 := by decide
    rw [h0]
    exact ih

theorem zeros_append_all_digits (k : ℕ) (s : List Char)
    (hs : s.all Char.isDigit = true) :
    (List.replicate k '0' ++ s).all Char.isDigit = true := by
  rw [List.all_append, hs]
  have : (List.replicate k '0').all Char.isDigit = true := by
    rw [List.all_eq_true]
    intro c hc
    rw [List.eq_of_mem_replicate hc]
    decide
  rw [this]
  rfl

theorem zfill_digits (w : ℕ) (s : List Char) (hne : s ≠ [])
    (hd : s.all Char.isDigit = true) :
    zfill w s = List.replicate (w - s.length) '0' ++ s := by
  unfold zfill
  split
  · rename_i hw
    rw [Nat.sub_eq_zero_of_le hw]
    simp
  · cases s with
    | nil => exact absurd rfl hne
    | cons c rest =>
      have hc : c.isDigit = true := by
        rw [List.all_cons, Bool.and_eq_true] at hd
        exact hd.1
      dsimp only
      rw [if_neg (isDigit_ne_sign c hc)]

theorem zfill_sign (w : ℕ) (t : List Char) :
    zfill w ('-' :: t) = '-' :: (List.replicate (w - (t.length + 1)) '0' ++ t) := by
  unfold zfill
  split
  · rename_i hw
    simp only [List.length_cons] at hw
    rw [Nat.sub_eq_zero_of_le hw]
    simp
  · dsimp only
    rw [if_pos (Or.inl rfl)]
    simp [List.length_cons]

theorem pyInt_digits (s : List Char) (hne : s ≠ []) (hd : s.all Char.isDigit = true) :
    pyInt s = some (parseNatVal s : ℤ) := by
  cases s with
  | nil => exact absurd rfl hne
  | cons c rest =>
    have hc : c.isDigit = true := by
      rw [List.all_cons, Bool.and_eq_true] at hd
      exact hd.1
    have hsign := isDigit_ne_sign c hc
    unfold pyInt
    dsimp only
    rw [if_neg (fun h => hsign (Or.inl h)), if_neg (fun h => hsign (Or.inr h))]
    unfold parseDigits
    rw [if_pos ⟨by simp, hd⟩]
    rfl

theorem dropWhile_eq_self_of_not (p : Char → Bool) (l : List Char)
    (h : ∀ c ∈ l, p c = false) : l.dropWhile p = l := by
  cases l with
  | nil => rfl
  | cons c rest =>
    rw [List.dropWhile_cons, h c (List.mem_cons_self c rest)]
    simp

theorem pyStrip_eq_self (s : List Char) (h : ∀ c ∈ s, c.isWhitespace = false) :
    pyStrip s = s := by
  unfold pyStrip
  rw [dropWhile_eq_self_of_not _ s h,
    dropWhile_eq_self_of_not _ s.reverse (fun c hc => h c (List.mem_reverse.mp hc)),
    List.reverse_reverse]

/-- Counterexample to C3 as stated.  The id `-10000000` lies in
`[-99999999, 99999999]`, but `str(-10000000)` already has 9 characters, so
`zfill(8)` pads nothing and taking the first 8 bytes drops the last digit:
the decode yields `-1000000`, not `-10000000`.  The same happens for every
id in `[-99999999, -10000000]`. -/
theorem packet_id_roundtrip_cex :
    (-99999999 : ℤ) ≤ -10000000 ∧ (-10000000 : ℤ) ≤ 99999999 ∧
    decodePacketId (encodePacketId (-10000000)) = some (-1000000) ∧
    decodePacketId (encodePacketId (-10000000)) ≠ some (-10000000) := by
  refine ⟨by norm_num, by norm_num, by decide, by decide⟩

/-- C3 amended.  For every integer id in `[-9999999, 99999999]` (all ids
whose Python `str` is at most 8 characters, the sign of negative ids counted
inside the 8-character field), encoding the id into the wire format and
decoding the first 8 bytes of the resulting datagram recovers the original
id, for any payload appended after the id field. -/
theorem packet_id_roundtrip (i : ℤ) (payload : List Char)
    (h1 : -9999999 ≤ i) (h2 : i ≤ 99999999) :
    decodePacketId (encodePacketId i ++ payload) = some i := by
  have hp7 : (10 : ℕ) ^ 7 = 10000000 := by norm_num
  have hp8 : (10 : ℕ) ^ 8 = 100000000 := by norm_num
  by_cases hneg : i < 0
  · -- negative id: one sign character plus at most 7 digits
    have hm7 : i.natAbs < 10 ^ 7 := by omega
    have hiStr : intStr i = '-' :: natStr i.natAbs := by
      rw [intStr, if_pos hneg]
    have hlen : (natStr i.natAbs).length ≤ 7 :=
      natStr_length_le i.natAbs 7 (by norm_num) hm7
    have henc : encodePacketId i =
        '-' :: (List.replicate (8 - ((natStr i.natAbs).length + 1)) '0' ++
          natStr i.natAbs) := by
      rw [encodePacketId, hiStr, zfill_sign]
    have hlen8 : (encodePacketId i).length = 8 := by
      rw [henc]
      simp only [List.length_cons, List.length_append, List.length_replicate]
      omega
    have htake : (encodePacketId i ++ payload).take 8 = encodePacketId i := by
      rw [← hlen8, List.take_left]
    have hnws : ∀ c ∈ encodePacketId i, c.isWhitespace = false := by
      rw [henc]
      intro c hc
      simp only [List.mem_cons, List.mem_append] at hc
      rcases hc with rfl | hc | hc
      · decide
      · rw [List.eq_of_mem_replicate hc]; decide
      · refine isDigit_not_whitespace c ?_
        have h := natStr_all_digits i.natAbs
        rw [List.all_eq_true] at h
        simpa using h c hc
    rw [decodePacketId, htake, pyStrip_eq_self _ hnws, henc]
    unfold pyInt
    dsimp only
    rw [if_pos rfl]
    have hpd : parseDigits
        (List.replicate (8 - ((natStr i.natAbs).length + 1)) '0' ++
          natStr i.natAbs) = some i.natAbs := by
      unfold parseDigits
      rw [if_pos ⟨by simp [natStr_ne_nil],
        zeros_append_all_digits _ _ (natStr_all_digits i.natAbs)⟩,
        parseNatVal_zeros_append, parseNatVal_natStr]
    rw [hpd]
    show some (-(i.natAbs : ℤ)) = some i
    congr 1
    omega
  · -- non-negative id: at most 8 digits
    push_neg at hneg
    have hn8 : i.toNat < 10 ^ 8 := by omega
    have hiStr : intStr i = natStr i.toNat := by
      rw [intStr, if_neg (not_lt.mpr hneg)]
    have hlen : (natStr i.toNat).length ≤ 8 :=
      natStr_length_le i.toNat 8 (by norm_num) hn8
    have henc : encodePacketId i =
        List.replicate (8 - (natStr i.toNat).length) '0' ++ natStr i.toNat := by
      rw [encodePacketId, hiStr,
        zfill_digits 8 _ (natStr_ne_nil i.toNat) (natStr_all_digits i.toNat)]
    have hlen8 : (encodePacketId i).length = 8 := by
      rw [henc]
      simp only [List.length_append, List.length_replicate]
      omega
    have htake : (encodePacketId i ++ payload).take 8 = encodePacketId i := by
      rw [← hlen8, List.take_left]
    have halld : (encodePacketId i).all Char.isDigit = true := by
      rw [henc]
      exact zeros_append_all_digits _ _ (natStr_all_digits i.toNat)
    have hnws : ∀ c ∈ encodePacketId i, c.isWhitespace = false := by
      intro c hc
      refine isDigit_not_whitespace c ?_
      rw [List.all_eq_true] at halld
      simpa using halld c hc
    have hne : encodePacketId i ≠ [] := by
      intro h
      rw [h] at hlen8
      exact absurd hlen8 (by decide)
    rw [decodePacketId, htake, pyStrip_eq_self _ hnws, pyInt_digits _ hne halld,
      henc, parseNatVal_zeros_append, parseNatVal_natStr]
    congr 1
    omega

/-- Witness for the amended C3: the end-of-session marker id `-2` with
payload `"END"` (as built by `QuicSender.close_session`) round-trips. -/
theorem packet_id_roundtrip_witness :
    decodePacketId (encodePacketId (-2) ++ ['E', 'N', 'D']) = some (-2) :=
  packet_id_roundtrip (-2) ['E', 'N', 'D'] (by norm_num) (by norm_num)

/-! ### C9: the timeout branch of `QuicSender.simulate` -/

/-- Python `range(a, a + n)` over integers, as a list. -/
def intRange (a : ℤ) (n : ℕ) : List ℤ := (List.range n).map fun k => a + k

/-- The persistent-congestion test of the `socket.timeout` handler in
`QuicSender.simulate`: after appending the current loss timestamp, the loss
is persistent iff at least two timestamps have been recorded, the gap
between the two most recent ones is below
`estimated_rtt + (4 * dev_rtt) * 2`, and no id of
`range(packet_id - packets_in_window, packet_id)` has been acknowledged. -/
def classifyPersistentCongestion (loss_timestamps : List ℚ) (now : ℚ)
    (est dev : ℚ) (packet_id : ℤ) (packets_in_window : ℕ)
    (acked : List ℤ) : Bool :=
  let ts := loss_timestamps ++ [now]
  let congestion_period := est + (4 * dev) * 2
  decide (2 ≤ ts.length) &&
    (match loss_timestamps.getLast? with
     | some prev => decide (now - prev < congestion_period)
     | none => false) &&
    (intRange (packet_id - packets_in_window) packets_in_window).all
      fun pkt => decide (pkt ∉ acked)

/-- The whole `socket.timeout` handler of `QuicSender.simulate`: record the
loss timestamp, classify, clear the timestamp history on a positive
classification, and feed the classification into `on_loss`.  Returns the
updated controller and the updated loss-timestamp list. -/
def timeoutStep (c : NewReno) (loss_timestamps : List ℚ) (now : ℚ)
    (packet_id : ℤ) (packets_in_window : ℕ) (acked : List ℤ) :
    NewReno × List ℚ :=
  let p := classifyPersistentCongestion loss_timestamps now c.estimated_rtt c.dev_rtt
    packet_id packets_in_window acked
  (c.on_loss now p now, if p then [] else loss_timestamps ++ [now])

/-- C9.  On an ack-wait deadline expiry the loss timestamp is recorded and
the loss is classified persistent iff (a) at least two loss timestamps have
been recorded, (b) the gap between the two most recent ones is smaller than
`estimated_rtt + 8 * rtt_deviation`, and (c) no packet id of the current
window is among the acknowledged ids; on a positive classification the
timestamp history is cleared, and the resulting boolean is the
`is_persistent_congestion` argument of the `on_loss` call. -/
theorem timeout_persistent_classification :
    ∀ (c : NewReno) (lossTs : List ℚ) (now : ℚ) (pid : ℤ) (piw : ℕ)
      (acked : List ℤ),
      (classifyPersistentCongestion lossTs now c.estimated_rtt c.dev_rtt pid piw acked
          = true ↔
        2 ≤ (lossTs ++ [now]).length ∧
        (∃ prev, lossTs.getLast? = some prev ∧
          now - prev < c.estimated_rtt + 8 * c.dev_rtt) ∧
        ∀ pkt ∈ intRange (pid - piw) piw, pkt ∉ acked) ∧
      (timeoutStep c lossTs now pid piw acked).2 =
        (if classifyPersistentCongestion lossTs now c.estimated_rtt c.dev_rtt pid
            piw acked
         then [] else lossTs ++ [now]) ∧
      (timeoutStep c lossTs now pid piw acked).1 =
        c.on_loss now
          (classifyPersistentCongestion lossTs now c.estimated_rtt c.dev_rtt pid
            piw acked)
          now := by
  intro c lossTs now pid piw acked
  refine ⟨?_, rfl, rfl⟩
  have hperiod : c.estimated_rtt + 4 * c.dev_rtt * 2 =
      c.estimated_rtt + 8 * c.dev_rtt := by ring
  simp only [classifyPersistentCongestion]
  cases hl : lossTs.getLast? with
  | none =>
    have hnil : lossTs = [] := by
      cases lossTs with
      | nil => rfl
      | cons x xs => simp [List.getLast?_concat] at hl
    subst hnil
    simp
  | some prev =>
    simp only [Bool.and_eq_true, decide_eq_true_eq, List.all_eq_true,
      hperiod]
    constructor
    · rintro ⟨⟨hlen, hgap⟩, hall⟩
      refine ⟨hlen, ⟨prev, rfl, by simpa [hperiod] using hgap⟩, ?_⟩
      intro pkt hpkt
      simpa using hall pkt hpkt
    · rintro ⟨hlen, ⟨prev', hprev', hgap⟩, hall⟩
      cases hprev'
      refine ⟨⟨hlen, by simpa [hperiod] using hgap⟩, ?_⟩
      intro pkt hpkt
      simpa using hall pkt hpkt

/-! ### C10: `send_packets_in_window` always returns the full window budget -/

/-- Result of one call to `QuicSender.send_packets_in_window`: the returned
triple `(packets_in_window, packet_id, sent_packets)`, plus the remaining
content list and the datagrams put on the wire. -/
structure SendWindowResult where
  packets_in_window : ℕ
  next_packet_id : ℤ
  sent_packets : ℕ
  remaining_data : List (List Char)
  datagrams : List (List Char)
  deriving Repr, DecidableEq

/-- The send loop of `QuicSender.send_packets_in_window`: up to `k` more
iterations; stop early once `packet_id > num_packets`; each iteration pops
the first content item (`list.pop(0)` on an empty list raises, embedded as
`none`), frames it behind the encoded packet id, sends it, and increments
`sent_packets` and `packet_id`. -/
def sendWindowLoop : ℕ → ℤ → List (List Char) → ℕ → ℤ →
    Option (ℤ × ℕ × List (List Char) × List (List Char))
  | 0, pid, data, sent, _ => some (pid, sent, data, [])
  | k + 1, pid, data, sent, num =>
    if num < pid then some (pid, sent, data, [])
    else
      match data with
      | [] => none
      | content :: rest =>
        (sendWindowLoop k (pid + 1) rest (sent + 1) num).map
          fun r => (r.1, r.2.1, r.2.2.1, (encodePacketId pid ++ content) :: r.2.2.2)

/-- `QuicSender.send_packets_in_window`: compute the window budget
`congestion_window // max_packet_size`, run the send loop at most that many
times, and return the budget (not the number of packets actually sent)
together with the next packet id and the updated sent count. -/
def send_packets_in_window (cwnd : ℕ) (packet_id : ℤ)
    (packets_data : List (List Char)) (sent_packets : ℕ) (num_packets : ℤ) :
    Option SendWindowResult :=
  let piw := cwnd / MAX_PACKET_SIZE
  (sendWindowLoop piw packet_id packets_data sent_packets num_packets).map
    fun r =>
      { packets_in_window := piw
        next_packet_id := r.1
        sent_packets := r.2.1
        remaining_data := r.2.2.1
        datagrams := r.2.2.2 }

/-- The ack-collection loop bound of `QuicSender.simulate`
(`for _ in range(packets_in_window)`): the number of acknowledgments awaited
for a window is the `packets_in_window` value returned by
`send_packets_in_window`. -/
def acksAwaited (r : SendWindowResult) : ℕ := r.packets_in_window

/-- C10.  Whenever `send_packets_in_window` returns, its `packets_in_window`
value is the full window budget `floor(congestion_window / MSS)`, regardless
of how many packets were actually transmitted (the loop stops early when
`packet_id` exceeds `num_packets`), and the ack-collection loop of
`simulate` therefore awaits exactly that budget of acknowledgments. -/
theorem send_window_budget (cwnd : ℕ) (pid : ℤ) (data : List (List Char))
    (sent : ℕ) (num : ℤ) (r : SendWindowResult)
    (h : send_packets_in_window cwnd pid data sent num = some r) :
    r.packets_in_window = cwnd / MAX_PACKET_SIZE ∧
    acksAwaited r = cwnd / MAX_PACKET_SIZE := by
  simp only [send_packets_in_window] at h
  cases hl : sendWindowLoop (cwnd / MAX_PACKET_SIZE) pid data sent num with
  | none => rw [hl] at h; exact absurd h (by simp)
  | some s =>
    rw [hl] at h
    injection h with h
    subst h
    exact ⟨rfl, rfl⟩

/-- Witness for C10: a window of budget 4 (`cwnd = 6000`) in which only one
packet is transmitted (the single remaining one, `packet_id = num_packets =
3`), yet the returned `packets_in_window` is still 4. -/
theorem send_window_budget_witness :
    ({ packets_in_window := 4, next_packet_id := 4, sent_packets := 1,
       remaining_data := [], datagrams := [encodePacketId 3] } :
        SendWindowResult).packets_in_window = 6000 / MAX_PACKET_SIZE ∧
    acksAwaited
        { packets_in_window := 4, next_packet_id := 4, sent_packets := 1,
          remaining_data := [], datagrams := [encodePacketId 3] } =
      6000 / MAX_PACKET_SIZE :=
  send_window_budget 6000 3 [[]] 0 3 _ rfl

/-- Witness for C9: the characterization applied to a fresh controller with
one previously recorded loss timestamp, a second loss at time `1`, window
ids `[2, 3]` and acknowledged set `[1]`. -/
theorem timeout_persistent_classification_witness :
    (timeoutStep NewReno.init [0] 1 4 2 [1]).2 =
      (if classifyPersistentCongestion [0] 1 NewReno.init.estimated_rtt
          NewReno.init.dev_rtt 4 2 [1]
       then [] else [0] ++ [1]) :=
  (timeout_persistent_classification NewReno.init [0] 1 4 2 [1]).2.1
